import Mathlib

/-!
Verification of `src/vs/workbench/parts/scm/electron-browser/dirtydiffDecorator.ts`:
the dirty-diff decoration engine. We embed the code shallowly: the pure mapper
`changesToDecorations` becomes a Lean function, the stateful coordinator
(`DirtyDiffModelDecorator`) becomes explicit state-passing functions over a
`CoordinatorState` record, promise rejection is modelled with `Except`, and the
visible-model tracker (`DirtyDiffDecorator.onEditorsChanged`) acts on lists of
model identities.
-/

namespace DirtyDiff

/-- `common.IChange`: a line-range change produced by the external diff service.
`originalEndLineNumber = 0` is the sentinel for a pure insertion,
`modifiedEndLineNumber = 0` the sentinel for a pure deletion. -/
structure Change where
  originalStartLineNumber : Nat
  originalEndLineNumber : Nat
  modifiedStartLineNumber : Nat
  modifiedEndLineNumber : Nat
  deriving Repr, DecidableEq

/-- The four registered decoration option sets of `DirtyDiffModelDecorator`
(`MODIFIED/ADDED/DELETED/HIDDEN_DECORATION_OPTIONS`), identified by kind. -/
inductive DecorationOptions where
  | Modified
  | Added
  | Deleted
  | Hidden
  deriving Repr, DecidableEq

/-- A decoration range as built literally in `changesToDecorations`. -/
structure DecoRange where
  startLineNumber : Nat
  startColumn : Nat
  endLineNumber : Nat
  endColumn : Nat
  deriving Repr, DecidableEq

/-- `common.IModelDeltaDecoration`: a range plus the registered options used. -/
structure ModelDeltaDecoration where
  range : DecoRange
  options : DecorationOptions
  deriving Repr, DecidableEq

/-- The body of the arrow function passed to `diff.map` in
`DirtyDiffModelDecorator.changesToDecorations` (lines 169–213), factored out by
name.  When `hidden` the change becomes a Hidden decoration with the degenerate
line-0 range; otherwise the Added test (`originalEndLineNumber === 0`) runs
before the Removed test (`modifiedEndLineNumber === 0`), and JavaScript's
`change.modifiedEndLineNumber || startLineNumber` reads as: use
`modifiedStartLineNumber` when `modifiedEndLineNumber` is 0. -/
def decorationOfChange (hidden : Bool) (change : Change) : ModelDeltaDecoration :=
  if hidden then
    { range := { startLineNumber := 0, startColumn := 1,
                 endLineNumber := 0, endColumn := 0 },
      options := .Hidden }
  else
    let startLineNumber := change.modifiedStartLineNumber
    let endLineNumber :=
      if change.modifiedEndLineNumber = 0 then startLineNumber
      else change.modifiedEndLineNumber
    if change.originalEndLineNumber = 0 then
      { range := { startLineNumber := startLineNumber, startColumn := 1,
                   endLineNumber := endLineNumber, endColumn := 1 },
        options := .Added }
    else if change.modifiedEndLineNumber = 0 then
      { range := { startLineNumber := startLineNumber, startColumn := 1,
                   endLineNumber := startLineNumber, endColumn := 1 },
        options := .Deleted }
    else
      { range := { startLineNumber := startLineNumber, startColumn := 1,
                   endLineNumber := endLineNumber, endColumn := 1 },
        options := .Modified }

/-- `DirtyDiffModelDecorator.changesToDecorations(diff, hidden)`:
`diff.map(change => ...)`. -/
def changesToDecorations (diff : List Change) (hidden : Bool) :
    List ModelDeltaDecoration :=
  diff.map (decorationOfChange hidden)

/-- A text model (buffer) observed by the coordinator: its disposed flag and,
for the baseline, its `getValueLength()`.  `none` models a `null` field. -/
structure ModelRef where
  isDisposed : Bool
  valueLength : Nat
  deriving Repr, DecidableEq

/-- The mutable fields of `DirtyDiffModelDecorator` that the diff-completion
handler and `dispose` read and write.  `none` models a `null` reference. -/
structure CoordinatorState where
  model : Option ModelRef
  baselineModel : Option ModelRef
  decorations : Option (List Nat)
  diffDelayer : Bool
  toDispose : List Nat
  deriving Repr, DecidableEq

/-- A call into the external decoration API
(`model.deltaDecorations(oldIds, newDecorations)`). -/
inductive APICall where
  | deltaDecorations (oldIds : List Nat) (newDecorations : List ModelDeltaDecoration)
  deriving Repr, DecidableEq

/-- The `.then` completion handler inside `triggerDiff` (lines 109–122): if the
model or the baseline model is gone or disposed, return without touching
decorations; otherwise force the change list to empty when the baseline has
length 0, map via `changesToDecorations` with the current hidden flag, and
replace the decoration set (the environment supplies the fresh ids `newIds`
that `deltaDecorations` returns). -/
def onDiffComplete (s : CoordinatorState) (diff : List Change) (hidden : Bool)
    (newIds : List Nat) : CoordinatorState × List APICall :=
  match s.model, s.baselineModel with
  | some m, some b =>
      if m.isDisposed || b.isDisposed then
        (s, [])
      else
        let diff2 := if b.valueLength = 0 then [] else diff
        ({ s with decorations := some newIds },
         [APICall.deltaDecorations (s.decorations.getD [])
            (changesToDecorations diff2 hidden)])
  | _, _ => (s, [])

/-- `DirtyDiffModelDecorator.dispose` (lines 216–231): dispose the
subscriptions, clear the decoration set through the API only when the model is
still present and not disposed, null the model, baseline and decoration
references, and cancel and null the delayer. -/
def dispose (s : CoordinatorState) : CoordinatorState × List APICall :=
  let calls :=
    match s.model with
    | some m =>
        if m.isDisposed then []
        else [APICall.deltaDecorations (s.decorations.getD []) []]
    | none => []
  ({ model := none, baselineModel := none, decorations := none,
     diffDelayer := false, toDispose := [] }, calls)

/-- Outcome of the baseline resolution chain (`getOriginalURIPromise`), as a
settled promise: `Except.error` is a rejection (provider error or model-load
error); `Except.ok none` is resolution to `null` (no active provider, or the
provider returned no original resource); `Except.ok (some uri)` is a resolved
origin URI.  URIs are identified by naturals. -/
def Resolution : Type := Except Unit (Option Nat)

/-- `DirtyDiffModelDecorator.diff` (lines 125–133): resolve the original URI;
on rejection the rejection propagates; if the model is gone, disposed, or the
URI resolved to `null`, resolve to the empty change list; otherwise the value
is whatever `editorWorkerService.computeDirtyDiff` returns (supplied by the
environment as `serviceResult`). -/
def diffFn (model : Option ModelRef) (resolution : Resolution)
    (serviceResult : List Change) : Except Unit (List Change) :=
  match resolution with
  | .error e => .error e
  | .ok originalURI =>
      match model, originalURI with
      | some m, some _ =>
          if m.isDisposed then .ok [] else .ok serviceResult
      | _, _ => .ok []

/-- One complete diff cycle past the throttle: run `diff()` and, only when it
fulfills, run the `triggerDiff` completion handler (`.then` with no rejection
handler, so a rejected `diff()` skips it and makes no decoration-API call). -/
def diffCycle (s : CoordinatorState) (resolution : Resolution)
    (serviceResult : List Change) (hidden : Bool) (newIds : List Nat) :
    CoordinatorState × List APICall :=
  match diffFn s.model resolution serviceResult with
  | .error _ => (s, [])
  | .ok diff => onDiffComplete s diff hidden newIds

/-- The fields of `DirtyDiffModelDecorator` involved in
`getOriginalURIPromise` (lines 135–166): `_originalURIPromise` holds the id of
the cached in-flight resolution promise (`none` models `null`); `nextPromiseId`
supplies fresh promise ids; `providerCalls` counts the invocations of
`provider.getOriginalResource`. -/
structure ResolverState where
  originalURIPromise : Option Nat
  nextPromiseId : Nat
  providerCalls : Nat
  deriving Repr, DecidableEq

/-- What `getOriginalURIPromise` hands back to its caller: either the
immediately-resolved `TPromise.as(null)` (no active provider), or a promise
carrying the id of the in-flight resolution chain. -/
inductive ResolverReturn where
  | nullPromise
  | inFlight (promiseId : Nat)
  deriving Repr, DecidableEq

/-- `DirtyDiffModelDecorator.getOriginalURIPromise` (lines 135–166): return the
cached `_originalURIPromise` when one is set; otherwise, with no active
provider, return `TPromise.as(null)` without caching anything; otherwise start
the provider/resolve chain as a fresh promise, cache it, and return it (the
`always` wrapper mirrors the same chain). -/
def getOriginalURIPromise (s : ResolverState) (providerPresent : Bool) :
    ResolverState × ResolverReturn :=
  match s.originalURIPromise with
  | some p => (s, .inFlight p)
  | none =>
      if providerPresent then
        ({ originalURIPromise := some s.nextPromiseId,
           nextPromiseId := s.nextPromiseId + 1,
           providerCalls := s.providerCalls + 1 },
         .inFlight s.nextPromiseId)
      else
        (s, .nullPromise)

/-- The `always(this._originalURIPromise, () => { this._originalURIPromise =
null; })` callback: on settlement of the cached promise — fulfillment or
rejection alike — the cache is cleared. -/
def settleOriginalURIPromise (s : ResolverState) : ResolverState :=
  { s with originalURIPromise := none }

/-- The state of `DirtyDiffDecorator` (the tracker): `models` is the tracked
visible-model list, `decorators` the model-id-keyed registry of coordinator
instances (instances identified by tokens), `nextInstance` supplies fresh
instance tokens. -/
structure TrackerState where
  models : List Nat
  decorators : List (Nat × Nat)
  nextInstance : Nat
  deriving Repr, DecidableEq

/-- Observable tracker actions: constructing a coordinator for a model, and
disposing a model's coordinator. -/
inductive TrackerEvent where
  | create (modelId instanceId : Nat)
  | disposeCoordinator (modelId instanceId : Nat)
  deriving Repr, DecidableEq

/-- `this.decorators[model.id]` lookup in the registry (later entries shadow
earlier ones, matching property overwrite). -/
def lookupDecorator (d : List (Nat × Nat)) (m : Nat) : Option Nat :=
  (d.find? (fun p => p.1 = m)).map Prod.snd

/-- The dedup step of `onEditorsChanged` (line 270):
`filter((m, i, a) => ... && a.indexOf(m, i + 1) === -1)` keeps a model exactly
when no equal model occurs later in the list (the last occurrence survives). -/
def dedupKeepLast : List Nat → List Nat
  | [] => []
  | m :: rest => if m ∈ rest then dedupKeepLast rest else m :: dedupKeepLast rest

/-- `newModels` (line 275): visible models with no identity-equal member of the
previously tracked list. -/
def newModelsOf (previous current : List Nat) : List Nat :=
  current.filter (fun p => previous.all (fun m => p ≠ m))

/-- `oldModels` (line 276): previously tracked models with no identity-equal
member of the current visible list. -/
def oldModelsOf (previous current : List Nat) : List Nat :=
  previous.filter (fun m => current.all (fun p => p ≠ m))

/-- `DirtyDiffDecorator.onModelVisible` (lines 285–287): store a freshly
constructed coordinator under the model's id. -/
def onModelVisible (d : List (Nat × Nat)) (next m : Nat) :
    List (Nat × Nat) × Nat × TrackerEvent :=
  ((m, next) :: d, next + 1, .create m next)

/-- `DirtyDiffDecorator.onModelInvisible` (lines 289–292): dispose the model's
coordinator and delete its registry entry.  (In the source a missing entry
would throw; every tracked model has an entry, so that case is unreachable and
modelled as producing no event.) -/
def onModelInvisible (d : List (Nat × Nat)) (m : Nat) :
    List (Nat × Nat) × List TrackerEvent :=
  (d.filter (fun p => p.1 ≠ m),
   match lookupDecorator d m with
   | some i => [.disposeCoordinator m i]
   | none => [])

/-- `newModels.forEach(({ model, uri }) => this.onModelVisible(model, uri))`. -/
def createAll (d : List (Nat × Nat)) (next : Nat) :
    List Nat → List (Nat × Nat) × Nat × List TrackerEvent
  | [] => (d, next, [])
  | m :: rest =>
      let step := onModelVisible d next m
      let restOut := createAll step.1 step.2.1 rest
      (restOut.1, restOut.2.1, step.2.2 :: restOut.2.2)

/-- `oldModels.forEach(m => this.onModelInvisible(m))`. -/
def disposeAll (d : List (Nat × Nat)) :
    List Nat → List (Nat × Nat) × List TrackerEvent
  | [] => (d, [])
  | m :: rest =>
      let step := onModelInvisible d m
      let restOut := disposeAll step.1 rest
      (restOut.1, step.2 ++ restOut.2)

/-- `DirtyDiffDecorator.onEditorsChanged` (lines 254–283): deduplicate the
visible models by identity, compute `newModels` and `oldModels`, construct a
coordinator for each newly visible model, dispose and remove the coordinator of
each newly hidden model, and replace the tracked list.  `visible` is the
visible-editor model list after the code-editor/non-null filters. -/
def onEditorsChanged (s : TrackerState) (visible : List Nat) :
    TrackerState × List TrackerEvent :=
  let models := dedupKeepLast visible
  let newModels := newModelsOf s.models models
  let oldModels := oldModelsOf s.models models
  let created := createAll s.decorators s.nextInstance newModels
  let disposed := disposeAll created.1 oldModels
  ({ models := models, decorators := disposed.1, nextInstance := created.2.1 },
   created.2.2 ++ disposed.2)

/-- The model ids of the `create` events in a tracker event list. -/
def createdIds (evs : List TrackerEvent) : List Nat :=
  evs.filterMap fun e =>
    match e with
    | .create m _ => some m
    | .disposeCoordinator _ _ => none

/-- The model ids of the `disposeCoordinator` events in a tracker event
list. -/
def disposedIds (evs : List TrackerEvent) : List Nat :=
  evs.filterMap fun e =>
    match e with
    | .create _ _ => none
    | .disposeCoordinator m _ => some m

/-- Modelled from the spec: the source imports `ThrottledDelayer` from
`vs/base/common/async`, which is not under src/; §4.1 specifies it as a
coalescing scheduler holding at most one pending operation.  `pendingOp` is the
latest triggered operation, `lastRun` the time of the last execution, `delay`
the configured interval (200ms in the coordinator). -/
structure ThrottledDelayerState (α : Type) where
  pendingOp : Option α
  lastRun : Option Nat
  delay : Nat
  deriving Repr

/-- Modelled from the spec: `trigger(operation)` — a trigger arriving before
the pending operation has started replaces it, so only the most recently
supplied operation remains scheduled. -/
def delayerTrigger (s : ThrottledDelayerState α) (op : α) :
    ThrottledDelayerState α :=
  { s with pendingOp := some op }

/-- Modelled from the spec: an execution may start at `now` only when at least
`delay` has elapsed since the previous execution. -/
def delayerCanRun (s : ThrottledDelayerState α) (now : Nat) : Bool :=
  match s.lastRun with
  | none => true
  | some t => decide (t + s.delay ≤ now)

/-- Modelled from the spec: when the interval has elapsed, execute the single
pending operation (if any), clearing the pending slot and recording the
execution time; otherwise nothing runs. -/
def delayerRun (s : ThrottledDelayerState α) (now : Nat) :
    ThrottledDelayerState α × Option α :=
  if delayerCanRun s now then
    ({ s with pendingOp := none, lastRun := some now }, s.pendingOp)
  else
    (s, none)

/-! ## Basic facts about the mapper -/

lemma changesToDecorations_length (diff : List Change) (hidden : Bool) :
    (changesToDecorations diff hidden).length = diff.length := by
  simp [changesToDecorations]

lemma changesToDecorations_get (diff : List Change) (hidden : Bool) (i : Nat)
    (h : i < diff.length) (hh : i < (changesToDecorations diff hidden).length) :
    (changesToDecorations diff hidden).get ⟨i, hh⟩ =
      decorationOfChange hidden (diff.get ⟨i, h⟩) := by
  simp [changesToDecorations]

/-! ## C1: classification of changes with `hidden = false` -/

/-- C1: with `hidden = false`, `changesToDecorations` yields one decoration per
change, in input order, classified by the sentinel fields: `originalEndLine = 0`
gives an Added decoration spanning `[modifiedStartLine, modifiedEndLine ||
modifiedStartLine]`; otherwise `modifiedEndLine = 0` gives a Removed (Deleted)
decoration covering only line `modifiedStartLine`; otherwise a Modified
decoration spanning `[modifiedStartLine, modifiedEndLine]`. -/
theorem changesToDecorations_classification (diff : List Change) :
    (changesToDecorations diff false).length = diff.length ∧
    ∀ (i : Nat) (h : i < diff.length),
      ((diff.get ⟨i, h⟩).originalEndLineNumber = 0 →
        (changesToDecorations diff false).get
            ⟨i, (changesToDecorations_length diff false).symm ▸ h⟩ =
          { range := { startLineNumber := (diff.get ⟨i, h⟩).modifiedStartLineNumber,
                       startColumn := 1,
                       endLineNumber :=
                         if (diff.get ⟨i, h⟩).modifiedEndLineNumber = 0 then
                           (diff.get ⟨i, h⟩).modifiedStartLineNumber
                         else (diff.get ⟨i, h⟩).modifiedEndLineNumber,
                       endColumn := 1 },
            options := .Added }) ∧
      ((diff.get ⟨i, h⟩).originalEndLineNumber ≠ 0 →
        (diff.get ⟨i, h⟩).modifiedEndLineNumber = 0 →
        (changesToDecorations diff false).get
            ⟨i, (changesToDecorations_length diff false).symm ▸ h⟩ =
          { range := { startLineNumber := (diff.get ⟨i, h⟩).modifiedStartLineNumber,
                       startColumn := 1,
                       endLineNumber := (diff.get ⟨i, h⟩).modifiedStartLineNumber,
                       endColumn := 1 },
            options := .Deleted }) ∧
      ((diff.get ⟨i, h⟩).originalEndLineNumber ≠ 0 →
        (diff.get ⟨i, h⟩).modifiedEndLineNumber ≠ 0 →
        (changesToDecorations diff false).get
            ⟨i, (changesToDecorations_length diff false).symm ▸ h⟩ =
          { range := { startLineNumber := (diff.get ⟨i, h⟩).modifiedStartLineNumber,
                       startColumn := 1,
                       endLineNumber := (diff.get ⟨i, h⟩).modifiedEndLineNumber,
                       endColumn := 1 },
            options := .Modified }) := by
  refine ⟨changesToDecorations_length diff false, ?_⟩
  intro i h
  rw [changesToDecorations_get diff false i h]
  refine ⟨?_, ?_, ?_⟩
  · intro h1
    simp only [List.get_eq_getElem] at h1
    simp [decorationOfChange, h1]
  · intro h1 h2
    simp only [List.get_eq_getElem] at h1 h2
    simp [decorationOfChange, h1, h2]
  · intro h1 h2
    simp only [List.get_eq_getElem] at h1 h2
    simp [decorationOfChange, h1, h2]

/-- Witness for C1 at the concrete change list
`[insertion ⟨3, 0, 5, 7⟩, deletion ⟨4, 4, 9, 0⟩, modification ⟨2, 3, 2, 3⟩]`. -/
theorem changesToDecorations_classification_witness :
    (changesToDecorations
        [⟨3, 0, 5, 7⟩, ⟨4, 4, 9, 0⟩, ⟨2, 3, 2, 3⟩] false).get ⟨0, by decide⟩ =
      { range := { startLineNumber := 5, startColumn := 1,
                   endLineNumber := 7, endColumn := 1 },
        options := .Added } := by
  have h := (changesToDecorations_classification
    [⟨3, 0, 5, 7⟩, ⟨4, 4, 9, 0⟩, ⟨2, 3, 2, 3⟩]).2 0 (by decide)
  have h1 := h.1 (by decide)
  simpa using h1

/-! ## C2: the `hidden = true` branch -/

/-- C2: with `hidden = true`, `changesToDecorations` yields exactly one Hidden
decoration per change, each with the degenerate zero-width line-0 range,
regardless of the change contents. -/
theorem changesToDecorations_hidden (diff : List Change) :
    (changesToDecorations diff true).length = diff.length ∧
    ∀ d ∈ changesToDecorations diff true,
      d = { range := { startLineNumber := 0, startColumn := 1,
                       endLineNumber := 0, endColumn := 0 },
            options := .Hidden } := by
  refine ⟨changesToDecorations_length diff true, ?_⟩
  intro d hd
  rcases List.mem_map.1 hd with ⟨c, _, rfl⟩
  simp [decorationOfChange]

/-- Witness for C2 at a concrete two-change list. -/
theorem changesToDecorations_hidden_witness :
    (changesToDecorations [⟨3, 0, 5, 7⟩, ⟨4, 4, 9, 0⟩] true).length = 2 ∧
    (changesToDecorations [⟨3, 0, 5, 7⟩, ⟨4, 4, 9, 0⟩] true).get ⟨1, by decide⟩ =
      { range := { startLineNumber := 0, startColumn := 1,
                   endLineNumber := 0, endColumn := 0 },
        options := .Hidden } := by
  have h := changesToDecorations_hidden [⟨3, 0, 5, 7⟩, ⟨4, 4, 9, 0⟩]
  exact ⟨h.1, h.2 _ (List.get_mem _ _ _)⟩

/-! ## C10: both sentinels zero -/

/-- C10: a change with both `originalEndLine = 0` and `modifiedEndLine = 0` is
classified as Added (the Added test precedes the Removed test), yielding an
Added decoration on the single line `modifiedStartLine`, never a Removed
(Deleted) one. -/
theorem changesToDecorations_added_wins (diff : List Change) (i : Nat)
    (h : i < diff.length)
    (h1 : (diff.get ⟨i, h⟩).originalEndLineNumber = 0)
    (h2 : (diff.get ⟨i, h⟩).modifiedEndLineNumber = 0) :
    (changesToDecorations diff false).get
        ⟨i, (changesToDecorations_length diff false).symm ▸ h⟩ =
      { range := { startLineNumber := (diff.get ⟨i, h⟩).modifiedStartLineNumber,
                   startColumn := 1,
                   endLineNumber := (diff.get ⟨i, h⟩).modifiedStartLineNumber,
                   endColumn := 1 },
        options := .Added } ∧
    ((changesToDecorations diff false).get
        ⟨i, (changesToDecorations_length diff false).symm ▸ h⟩).options ≠
      .Deleted := by
  rw [changesToDecorations_get diff false i h]
  simp only [List.get_eq_getElem] at h1 h2
  refine ⟨?_, ?_⟩
  · simp [decorationOfChange, h1, h2]
  · simp [decorationOfChange, h1, h2]

/-- Witness for C10 at the concrete change `⟨4, 0, 6, 0⟩`. -/
theorem changesToDecorations_added_wins_witness :
    (changesToDecorations [⟨4, 0, 6, 0⟩] false).get ⟨0, by decide⟩ =
      { range := { startLineNumber := 6, startColumn := 1,
                   endLineNumber := 6, endColumn := 1 },
        options := .Added } := by
  have h := changesToDecorations_added_wins [⟨4, 0, 6, 0⟩] 0 (by decide)
    (by decide) (by decide)
  simpa using h.1

/-! ## C3: empty-baseline override -/

/-- C3: when the completion handler runs with an alive model and an alive
baseline model of value length 0, the change list is forced to empty before
mapping, so the decoration set applied through the API is empty even when the
diff service returned a non-empty change list. -/
theorem empty_baseline_forces_empty_decorations (s : CoordinatorState)
    (diff : List Change) (hidden : Bool) (ids : List Nat) (m b : ModelRef)
    (hm : s.model = some m) (hmd : m.isDisposed = false)
    (hb : s.baselineModel = some b) (hbd : b.isDisposed = false)
    (hlen : b.valueLength = 0) :
    onDiffComplete s diff hidden ids =
      ({ s with decorations := some ids },
       [APICall.deltaDecorations (s.decorations.getD []) []]) := by
  simp [onDiffComplete, hm, hb, hmd, hbd, hlen, changesToDecorations]

/-- Witness for C3: a zero-length baseline with a non-empty diff-service result
yields an empty decoration list. -/
theorem empty_baseline_forces_empty_decorations_witness :
    onDiffComplete
        { model := some { isDisposed := false, valueLength := 7 },
          baselineModel := some { isDisposed := false, valueLength := 0 },
          decorations := some [4, 5], diffDelayer := true, toDispose := [] }
        [⟨1, 2, 1, 2⟩] false [9] =
      ({ model := some { isDisposed := false, valueLength := 7 },
         baselineModel := some { isDisposed := false, valueLength := 0 },
         decorations := some [9], diffDelayer := true, toDispose := [] },
       [APICall.deltaDecorations [4, 5] []]) := by
  have h := empty_baseline_forces_empty_decorations
    { model := some { isDisposed := false, valueLength := 7 },
      baselineModel := some { isDisposed := false, valueLength := 0 },
      decorations := some [4, 5], diffDelayer := true, toDispose := [] }
    [⟨1, 2, 1, 2⟩] false [9] _ _ rfl rfl rfl rfl rfl
  simpa using h

/-! ## C4: stale results after disposal are never applied -/

/-- C4: once the coordinator is disposed — or whenever the buffer or the
baseline buffer is gone or disposed — the diff-completion handler changes
nothing and makes no decoration-API call; moreover disposal nulls the model
reference and the delayer, so stale in-flight diffs can never update
decorations after disposal. -/
theorem stale_result_never_applied (s0 s : CoordinatorState)
    (diff : List Change) (hidden : Bool) (ids : List Nat)
    (h : s = (dispose s0).1 ∨ s.model = none ∨
         (∃ m, s.model = some m ∧ m.isDisposed = true) ∨
         s.baselineModel = none ∨
         (∃ b, s.baselineModel = some b ∧ b.isDisposed = true)) :
    onDiffComplete s diff hidden ids = (s, []) ∧
    (dispose s0).1.model = none ∧ (dispose s0).1.diffDelayer = false := by
  refine ⟨?_, rfl, rfl⟩
  rcases h with h | h | ⟨m, hm, hmd⟩ | h | ⟨b, hb, hbd⟩
  · subst h
    rfl
  · simp [onDiffComplete, h]
  · cases hs : s.baselineModel <;> simp [onDiffComplete, hm, hmd, hs]
  · cases hs : s.model <;> simp [onDiffComplete, h, hs]
  · cases hs : s.model <;> simp [onDiffComplete, hb, hbd, hs]

/-- Witness for C4: a diff completing on a freshly disposed coordinator makes
no decoration-API call. -/
theorem stale_result_never_applied_witness :
    onDiffComplete
        (dispose { model := some { isDisposed := false, valueLength := 3 },
                   baselineModel := some { isDisposed := false, valueLength := 4 },
                   decorations := some [1], diffDelayer := true,
                   toDispose := [8] }).1
        [⟨1, 2, 1, 2⟩] false [9] =
      ((dispose { model := some { isDisposed := false, valueLength := 3 },
                  baselineModel := some { isDisposed := false, valueLength := 4 },
                  decorations := some [1], diffDelayer := true,
                  toDispose := [8] }).1, []) := by
  have h := stale_result_never_applied
    { model := some { isDisposed := false, valueLength := 3 },
      baselineModel := some { isDisposed := false, valueLength := 4 },
      decorations := some [1], diffDelayer := true, toDispose := [8] }
    (dispose { model := some { isDisposed := false, valueLength := 3 },
               baselineModel := some { isDisposed := false, valueLength := 4 },
               decorations := some [1], diffDelayer := true,
               toDispose := [8] }).1
    [⟨1, 2, 1, 2⟩] false [9] (Or.inl rfl)
  exact h.1

/-! ## C8: disposal is idempotent -/

/-- C8: disposing twice has no observable effect beyond the first disposal:
the second `dispose` leaves the state unchanged and makes no decoration-API
call (this holds for every starting state, including one whose buffer was
already disposed before the first `dispose`; as a total Lean function,
`dispose` also cannot throw). -/
theorem dispose_idempotent (s : CoordinatorState) :
    dispose ((dispose s).1) = ((dispose s).1, []) := by
  rfl

/-! ## C5 (corrected): failure paths of baseline resolution -/

/-- C5 counterexample: with an alive model, an alive non-empty baseline and a
non-empty current decoration set, a cycle whose baseline resolution fails
(rejects) ends with NO decoration-API call and the decoration set still
`[1, 2]` — not the empty decoration set the claim requires. -/
theorem resolution_failure_keeps_old_decorations :
    diffCycle
        { model := some { isDisposed := false, valueLength := 3 },
          baselineModel := some { isDisposed := false, valueLength := 5 },
          decorations := some [1, 2], diffDelayer := true, toDispose := [] }
        (Except.error ()) [⟨1, 2, 1, 2⟩] false [9] =
      ({ model := some { isDisposed := false, valueLength := 3 },
         baselineModel := some { isDisposed := false, valueLength := 5 },
         decorations := some [1, 2], diffDelayer := true, toDispose := [] },
       []) ∧
    (diffCycle
        { model := some { isDisposed := false, valueLength := 3 },
          baselineModel := some { isDisposed := false, valueLength := 5 },
          decorations := some [1, 2], diffDelayer := true, toDispose := [] }
        (Except.error ()) [⟨1, 2, 1, 2⟩] false [9]).1.decorations ≠
      some [] := by
  exact ⟨rfl, by decide⟩

/-- C5 as amended: (a) with no cached promise and no active provider,
`getOriginalURIPromise` resolves to null immediately, with no provider call;
(b) a null resolution makes `diff()` fulfil with the empty change list; (c) a
cycle with a null resolution, an alive model and an alive baseline applies the
empty decoration set; (d) a cycle whose resolution rejects is absorbed: the
handler is skipped, the state is unchanged and no decoration-API call is made
(so the previous decorations remain), and nothing rethrows. -/
theorem no_baseline_degrades_to_empty (s : CoordinatorState)
    (rs : ResolverState) (sr : List Change) (hidden : Bool) (ids : List Nat)
    (m b : ModelRef) (hrs : rs.originalURIPromise = none)
    (hm : s.model = some m) (hmd : m.isDisposed = false)
    (hb : s.baselineModel = some b) (hbd : b.isDisposed = false) :
    getOriginalURIPromise rs false = (rs, .nullPromise) ∧
    diffFn s.model (Except.ok none) sr = Except.ok [] ∧
    diffCycle s (Except.ok none) sr hidden ids =
      ({ s with decorations := some ids },
       [APICall.deltaDecorations (s.decorations.getD [])
          (changesToDecorations (if b.valueLength = 0 then [] else []) hidden)]) ∧
    diffCycle s (Except.error ()) sr hidden ids = (s, []) := by
  refine ⟨?_, ?_, ?_, ?_⟩
  · simp [getOriginalURIPromise, hrs]
  · cases hs : s.model <;> simp [diffFn, hs]
  · simp [diffCycle, diffFn, hm, hmd, onDiffComplete, hb, hbd,
      changesToDecorations]
  · simp [diffCycle, diffFn]

/-- Witness for the amended C5 at a concrete state. -/
theorem no_baseline_degrades_to_empty_witness :
    diffCycle
        { model := some { isDisposed := false, valueLength := 3 },
          baselineModel := some { isDisposed := false, valueLength := 5 },
          decorations := some [1, 2], diffDelayer := true, toDispose := [] }
        (Except.ok none) [⟨1, 2, 1, 2⟩] false [9] =
      ({ model := some { isDisposed := false, valueLength := 3 },
         baselineModel := some { isDisposed := false, valueLength := 5 },
         decorations := some [9], diffDelayer := true, toDispose := [] },
       [APICall.deltaDecorations [1, 2] []]) := by
  have h := no_baseline_degrades_to_empty
    { model := some { isDisposed := false, valueLength := 3 },
      baselineModel := some { isDisposed := false, valueLength := 5 },
      decorations := some [1, 2], diffDelayer := true, toDispose := [] }
    { originalURIPromise := none, nextPromiseId := 0, providerCalls := 0 }
    [⟨1, 2, 1, 2⟩] false [9] _ _ rfl rfl rfl rfl rfl
  simpa using h.2.2.1

/-! ## C6: single-flight caching of the resolution promise -/

/-- C6: with an empty cache and an active provider, a first
`getOriginalURIPromise` call starts exactly one provider call and caches the
in-flight promise; a second call while it is in flight returns the very same
state and promise (no duplicate provider call); settlement clears the cache;
and a call after settlement performs a fresh provider call. -/
theorem resolver_single_flight (rs : ResolverState)
    (h : rs.originalURIPromise = none) :
    getOriginalURIPromise (getOriginalURIPromise rs true).1 true =
      getOriginalURIPromise rs true ∧
    (getOriginalURIPromise rs true).1.providerCalls = rs.providerCalls + 1 ∧
    (settleOriginalURIPromise
        (getOriginalURIPromise rs true).1).originalURIPromise = none ∧
    (getOriginalURIPromise
        (settleOriginalURIPromise (getOriginalURIPromise rs true).1)
        true).1.providerCalls = rs.providerCalls + 2 := by
  refine ⟨?_, ?_, ?_, ?_⟩
  · simp [getOriginalURIPromise, h]
  · simp [getOriginalURIPromise, h]
  · simp [getOriginalURIPromise, settleOriginalURIPromise, h]
  · simp [getOriginalURIPromise, settleOriginalURIPromise, h]

/-- Witness for C6 at the initial resolver state. -/
theorem resolver_single_flight_witness :
    getOriginalURIPromise
        (getOriginalURIPromise
          { originalURIPromise := none, nextPromiseId := 0, providerCalls := 0 }
          true).1 true =
      getOriginalURIPromise
        { originalURIPromise := none, nextPromiseId := 0, providerCalls := 0 }
        true ∧
    (getOriginalURIPromise
        { originalURIPromise := none, nextPromiseId := 0, providerCalls := 0 }
        true).1.providerCalls = 1 := by
  have h := resolver_single_flight
    { originalURIPromise := none, nextPromiseId := 0, providerCalls := 0 } rfl
  exact ⟨h.1, h.2.1⟩

/-! ## Helper lemmas for the tracker -/

lemma lookupDecorator_cons_ne (k v m : Nat) (d : List (Nat × Nat)) (h : m ≠ k) :
    lookupDecorator ((k, v) :: d) m = lookupDecorator d m := by
  simp [lookupDecorator, List.find?_cons, Ne.symm h]

lemma lookupDecorator_filter_ne (d : List (Nat × Nat)) (k m : Nat) (h : m ≠ k) :
    lookupDecorator (d.filter (fun p => p.1 ≠ k)) m = lookupDecorator d m := by
  induction d with
  | nil => rfl
  | cons a d ih =>
      rcases a with ⟨x, v⟩
      by_cases hx : x = k
      · subst hx
        have h1 : ((x, v) :: d).filter (fun p => p.1 ≠ x) =
            d.filter (fun p => p.1 ≠ x) := by
          simp
        have h2 : lookupDecorator ((x, v) :: d) m = lookupDecorator d m :=
          lookupDecorator_cons_ne x v m d h
        rw [h1, ih, h2]
      · have h1 : ((x, v) :: d).filter (fun p => p.1 ≠ k) =
            (x, v) :: d.filter (fun p => p.1 ≠ k) := by
          simp [hx]
        by_cases hxm : x = m
        · subst hxm
          rw [h1]
          have hL : lookupDecorator ((x, v) :: d.filter (fun p => p.1 ≠ k)) x =
              some v := by
            simp [lookupDecorator, List.find?_cons]
          have hR : lookupDecorator ((x, v) :: d) x = some v := by
            simp [lookupDecorator, List.find?_cons]
          rw [hL, hR]
        · rw [h1, lookupDecorator_cons_ne x v m _ (Ne.symm hxm), ih,
            lookupDecorator_cons_ne x v m d (Ne.symm hxm)]

lemma createdIds_append (a b : List TrackerEvent) :
    createdIds (a ++ b) = createdIds a ++ createdIds b := by
  simp [createdIds]

lemma disposedIds_append (a b : List TrackerEvent) :
    disposedIds (a ++ b) = disposedIds a ++ disposedIds b := by
  simp [disposedIds]

lemma createdIds_createAll (ms : List Nat) (d : List (Nat × Nat)) (n : Nat) :
    createdIds (createAll d n ms).2.2 = ms := by
  induction ms generalizing d n with
  | nil => rfl
  | cons m rest ih =>
      have hstep : createdIds (createAll d n (m :: rest)).2.2 =
          m :: createdIds (createAll ((m, n) :: d) (n + 1) rest).2.2 := rfl
      rw [hstep, ih]

lemma disposedIds_createAll (ms : List Nat) (d : List (Nat × Nat)) (n : Nat) :
    disposedIds (createAll d n ms).2.2 = [] := by
  induction ms generalizing d n with
  | nil => rfl
  | cons m rest ih =>
      have hstep : disposedIds (createAll d n (m :: rest)).2.2 =
          disposedIds (createAll ((m, n) :: d) (n + 1) rest).2.2 := rfl
      rw [hstep, ih]

lemma lookupDecorator_createAll (ms : List Nat) (d : List (Nat × Nat))
    (n m : Nat) (h : m ∉ ms) :
    lookupDecorator (createAll d n ms).1 m = lookupDecorator d m := by
  induction ms generalizing d n with
  | nil => rfl
  | cons a rest ih =>
      have hma : m ≠ a := fun hc => h (hc ▸ List.mem_cons_self a rest)
      have hrest : m ∉ rest := fun hc => h (List.mem_cons_of_mem a hc)
      simp only [createAll, onModelVisible]
      rw [ih _ _ hrest, lookupDecorator_cons_ne a n m d hma]

lemma lookupDecorator_disposeAll (ms : List Nat) (d : List (Nat × Nat))
    (m : Nat) (h : m ∉ ms) :
    lookupDecorator (disposeAll d ms).1 m = lookupDecorator d m := by
  induction ms generalizing d with
  | nil => rfl
  | cons a rest ih =>
      have hma : m ≠ a := fun hc => h (hc ▸ List.mem_cons_self a rest)
      have hrest : m ∉ rest := fun hc => h (List.mem_cons_of_mem a hc)
      simp only [disposeAll, onModelInvisible]
      rw [ih _ hrest, lookupDecorator_filter_ne d a m hma]

lemma createdIds_disposeAll (ms : List Nat) (d : List (Nat × Nat)) :
    createdIds (disposeAll d ms).2 = [] := by
  induction ms generalizing d with
  | nil => rfl
  | cons a rest ih =>
      have hstep : (disposeAll d (a :: rest)).2 =
          (onModelInvisible d a).2 ++
            (disposeAll (onModelInvisible d a).1 rest).2 := rfl
      rw [hstep, createdIds_append, ih]
      cases hl : lookupDecorator d a <;> simp [onModelInvisible, createdIds, hl]

lemma disposedIds_disposeAll (ms : List Nat) (d : List (Nat × Nat))
    (hnd : ms.Nodup) (hall : ∀ m ∈ ms, (lookupDecorator d m).isSome) :
    disposedIds (disposeAll d ms).2 = ms := by
  induction ms generalizing d with
  | nil => rfl
  | cons a rest ih =>
      obtain ⟨i, hi⟩ := Option.isSome_iff_exists.1 (hall a (List.mem_cons_self a rest))
      have hnotmem : a ∉ rest := (List.nodup_cons.1 hnd).1
      have hrest : ∀ m ∈ rest,
          (lookupDecorator (d.filter (fun p => p.1 ≠ a)) m).isSome := by
        intro m hm
        have hma : m ≠ a := fun hc => hnotmem (hc ▸ hm)
        rw [lookupDecorator_filter_ne d a m hma]
        exact hall m (List.mem_cons_of_mem a hm)
      have hstep : (disposeAll d (a :: rest)).2 =
          (onModelInvisible d a).2 ++
            (disposeAll (onModelInvisible d a).1 rest).2 := rfl
      have hstep2 : (onModelInvisible d a).2 = [.disposeCoordinator a i] := by
        simp [onModelInvisible, hi]
      have hstep1 : (onModelInvisible d a).1 = d.filter (fun p => p.1 ≠ a) := rfl
      rw [hstep, hstep2, disposedIds_append, hstep1,
        ih _ (List.nodup_cons.1 hnd).2 hrest]
      simp [disposedIds]

/-! ## C7: visibility churn -/

/-- C7: concretely, when the tracked models change from `{1, 2}` to `{2, 3}`
(with coordinators `10` for model 1 and `20` for model 2), the tracker creates
a coordinator for 3, disposes coordinator `10` of model 1, and leaves model 2's
coordinator `20` untouched (same instance).  In general, over any tracker state
with distinct tracked models each owning a coordinator: `create` events are
issued exactly for `current − previous`, `disposeCoordinator` events exactly
for `previous − current`, by model identity, and a model in both sets keeps
exactly the coordinator instance it had. -/
theorem tracker_visibility_churn :
    (onEditorsChanged
        { models := [1, 2], decorators := [(1, 10), (2, 20)],
          nextInstance := 30 } [2, 3] =
      ({ models := [2, 3], decorators := [(3, 30), (2, 20)],
         nextInstance := 31 },
       [.create 3 30, .disposeCoordinator 1 10]) ∧
     lookupDecorator
        (onEditorsChanged
          { models := [1, 2], decorators := [(1, 10), (2, 20)],
            nextInstance := 30 } [2, 3]).1.decorators 2 = some 20) ∧
    ∀ (s : TrackerState) (visible : List Nat),
      s.models.Nodup →
      (∀ m ∈ s.models, (lookupDecorator s.decorators m).isSome) →
      createdIds (onEditorsChanged s visible).2 =
        newModelsOf s.models (dedupKeepLast visible) ∧
      disposedIds (onEditorsChanged s visible).2 =
        oldModelsOf s.models (dedupKeepLast visible) ∧
      (∀ m, m ∈ newModelsOf s.models (dedupKeepLast visible) ↔
        m ∈ dedupKeepLast visible ∧ m ∉ s.models) ∧
      (∀ m, m ∈ oldModelsOf s.models (dedupKeepLast visible) ↔
        m ∈ s.models ∧ m ∉ dedupKeepLast visible) ∧
      (∀ m, m ∈ s.models → m ∈ dedupKeepLast visible →
        lookupDecorator (onEditorsChanged s visible).1.decorators m =
          lookupDecorator s.decorators m) := by
  constructor
  · exact ⟨by decide, by decide⟩
  · intro s visible hnd hall
    have hnewmem : ∀ m, m ∈ newModelsOf s.models (dedupKeepLast visible) ↔
        m ∈ dedupKeepLast visible ∧ m ∉ s.models := by
      intro m
      simp only [newModelsOf, List.mem_filter, List.all_eq_true,
        decide_eq_true_eq]
      constructor
      · rintro ⟨h1, h2⟩
        exact ⟨h1, fun hc => (h2 m hc) rfl⟩
      · rintro ⟨h1, h2⟩
        refine ⟨h1, fun x hx hc => h2 ?_⟩
        rw [hc]
        exact hx
    have holdmem : ∀ m, m ∈ oldModelsOf s.models (dedupKeepLast visible) ↔
        m ∈ s.models ∧ m ∉ dedupKeepLast visible := by
      intro m
      simp only [oldModelsOf, List.mem_filter, List.all_eq_true,
        decide_eq_true_eq]
      constructor
      · rintro ⟨h1, h2⟩
        exact ⟨h1, fun hc => (h2 m hc) rfl⟩
      · rintro ⟨h1, h2⟩
        refine ⟨h1, fun x hx hc => h2 ?_⟩
        rw [← hc]
        exact hx
    have holdnodup : (oldModelsOf s.models (dedupKeepLast visible)).Nodup :=
      List.Nodup.filter _ hnd
    have holdlookup : ∀ m ∈ oldModelsOf s.models (dedupKeepLast visible),
        (lookupDecorator
          (createAll s.decorators s.nextInstance
            (newModelsOf s.models (dedupKeepLast visible))).1 m).isSome := by
      intro m hm
      have hmem : m ∈ s.models := ((holdmem m).1 hm).1
      have hnotnew : m ∉ newModelsOf s.models (dedupKeepLast visible) := by
        intro hc
        exact ((hnewmem m).1 hc).2 hmem
      rw [lookupDecorator_createAll _ _ _ _ hnotnew]
      exact hall m hmem
    refine ⟨?_, ?_, hnewmem, holdmem, ?_⟩
    · simp only [onEditorsChanged, createdIds_append, createdIds_createAll,
        createdIds_disposeAll, List.append_nil]
    · simp only [onEditorsChanged, disposedIds_append, disposedIds_createAll,
        List.nil_append]
      exact disposedIds_disposeAll _ _ holdnodup holdlookup
    · intro m hmem hvis
      have hnotnew : m ∉ newModelsOf s.models (dedupKeepLast visible) := by
        intro hc
        exact ((hnewmem m).1 hc).2 hmem
      have hnotold : m ∉ oldModelsOf s.models (dedupKeepLast visible) := by
        intro hc
        exact ((holdmem m).1 hc).2 hvis
      simp only [onEditorsChanged]
      rw [lookupDecorator_disposeAll _ _ _ hnotold,
        lookupDecorator_createAll _ _ _ _ hnotnew]

/-- Witness for C7 at the `{1, 2} → {2, 3}` scenario. -/
theorem tracker_visibility_churn_witness :
    createdIds
        (onEditorsChanged
          { models := [1, 2], decorators := [(1, 10), (2, 20)],
            nextInstance := 30 } [2, 3]).2 =
      newModelsOf [1, 2] (dedupKeepLast [2, 3]) := by
  have h := tracker_visibility_churn.2
    { models := [1, 2], decorators := [(1, 10), (2, 20)], nextInstance := 30 }
    [2, 3] (by decide) (by decide)
  exact h.1

/-! ## C9: debounce coalescing (spec-modelled throttle) -/

lemma foldl_delayerTrigger_pendingOp {α : Type} (s : ThrottledDelayerState α)
    (ops : List α) (h : ops ≠ []) :
    (List.foldl delayerTrigger s ops).pendingOp = some (ops.getLast h) := by
  induction ops generalizing s with
  | nil => exact absurd rfl h
  | cons a rest ih =>
      by_cases hne : rest = []
      · subst hne
        rfl
      · rw [List.foldl_cons, List.getLast_cons hne]
        exact ih (delayerTrigger s a) hne

lemma delayerRun_of_no_pending {α : Type} (s : ThrottledDelayerState α)
    (t : Nat) (h : s.pendingOp = none) : (delayerRun s t).2 = none := by
  by_cases hc : delayerCanRun s t = true <;> simp [delayerRun, hc, h]

/-- C9: for a nonempty burst of triggers on one delayer, only the most recently
supplied operation stays pending; when the interval allows, one run executes
exactly that last operation, after which nothing further is pending (so there
is exactly one execution for the whole burst); and any execution that happens
at time `t2` after an execution recorded at `t1` satisfies
`t1 + delay ≤ t2`. -/
theorem throttle_coalesces {α : Type} (s : ThrottledDelayerState α)
    (ops : List α) (h : ops ≠ []) (now : Nat) :
    (List.foldl delayerTrigger s ops).pendingOp = some (ops.getLast h) ∧
    (delayerCanRun (List.foldl delayerTrigger s ops) now = true →
      (delayerRun (List.foldl delayerTrigger s ops) now).2 =
        some (ops.getLast h) ∧
      ∀ t2, (delayerRun
        (delayerRun (List.foldl delayerTrigger s ops) now).1 t2).2 = none) ∧
    (∀ (s2 : ThrottledDelayerState α) (t1 t2 : Nat) (op : α),
      s2.lastRun = some t1 → (delayerRun s2 t2).2 = some op →
      t1 + s2.delay ≤ t2) := by
  have hpend := foldl_delayerTrigger_pendingOp s ops h
  refine ⟨hpend, ?_, ?_⟩
  · intro hcan
    constructor
    · simp [delayerRun, hcan, hpend]
    · intro t2
      have hnone : (delayerRun (List.foldl delayerTrigger s ops) now).1.pendingOp
          = none := by
        simp [delayerRun, hcan]
      exact delayerRun_of_no_pending _ t2 hnone
  · intro s2 t1 t2 op h1 h2
    by_cases hc : delayerCanRun s2 t2 = true
    · have hc2 := hc
      unfold delayerCanRun at hc2
      rw [h1] at hc2
      exact of_decide_eq_true hc2
    · simp [delayerRun, hc] at h2

/-- Witness for C9: three triggers then one run at time 0 execute exactly the
last operation. -/
theorem throttle_coalesces_witness :
    (delayerRun
        (List.foldl delayerTrigger
          ({ pendingOp := none, lastRun := none, delay := 200 } :
            ThrottledDelayerState Nat) [1, 2, 3]) 0).2 = some 3 := by
  have h := throttle_coalesces
    ({ pendingOp := none, lastRun := none, delay := 200 } :
      ThrottledDelayerState Nat) [1, 2, 3] (by decide) 0
  have h2 := (h.2.1 (by decide)).1
  simpa using h2

end DirtyDiff
